import Mathlib

/-!
Verification of the Kani TTS WebSocket server (`websocket_server.py`) against its
natural-language specification.  The data model and operations below are a shallow
embedding of the Python source: audio samples are rationals (the Generator hands the
server floats in `[-1, 1]`), machine 16-bit integers are integers reduced modulo
`2 ^ 16`, and the asynchronous parts (worker thread, hand-off queue, connection loop)
are embedded as pure trace-producing functions over an explicit environment that
supplies the behaviour of the external Generator.
-/

namespace KaniTTS

/-! ### Audio framer

Embedded from `_stream_audio` (websocket_server.py line 211):
`pcm_data = (data * 32767).astype(np.int16)` followed by `pcm_data.tobytes()`.
NumPy's `astype(np.int16)` truncates the float toward zero and keeps the low
16 bits (two's-complement wraparound); `tobytes()` serializes the 16-bit values
little-endian. -/

/-- Truncation toward zero, the semantics of a float-to-integer C cast. -/
def truncQ (q : ℚ) : ℤ :=
  if 0 ≤ q then ⌊q⌋ else ⌈q⌉

/-- Reduce an integer into the signed 16-bit range `[-32768, 32767]`
(two's-complement wraparound); `%` is the Euclidean remainder. -/
def int16Wrap (n : ℤ) : ℤ :=
  if n % 65536 < 32768 then n % 65536 else n % 65536 - 65536

/-- Serialize a signed 16-bit value as two little-endian bytes. -/
def int16LEBytes (v : ℤ) : List ℕ :=
  [(v % 65536).toNat % 256, (v % 65536).toNat / 256]

/-- Embedded from line 211–212 of `websocket_server.py`:
`(data * 32767).astype(np.int16)` then `.tobytes()` — multiply each sample by
32767, truncate toward zero, wrap into int16, serialize little-endian. -/
def pcm16Bytes (samples : List ℚ) : List ℕ :=
  (samples.map fun x => int16LEBytes (int16Wrap (truncQ (x * 32767)))).flatten

/-- Written from the spec's words (§4.4 `toPCM16`), for comparison with
`pcm16Bytes`: clamp each sample to `[-1, 1]`, scale by 32767, round to the
nearest integer, serialize little-endian 16-bit signed. -/
def pcm16SpecBytes (samples : List ℚ) : List ℕ :=
  (samples.map fun x => int16LEBytes (round (32767 * max (-1 : ℚ) (min 1 x)))).flatten

/-- Decode little-endian byte pairs back into signed 16-bit values. -/
def decodePCM16 : List ℕ → List ℤ
  | lo :: hi :: rest => int16Wrap ((lo : ℤ) + 256 * hi) :: decodePCM16 rest
  | _ => []

lemma int16Wrap_emod (n : ℤ) : int16Wrap (n % 65536) = int16Wrap n := by
  unfold int16Wrap
  split_ifs with h1 h2 h3 <;> omega

lemma int16Wrap_idem (n : ℤ) : int16Wrap (int16Wrap n) = int16Wrap n := by
  unfold int16Wrap
  split_ifs with h1 h2 h3 h4 h5 h6 <;> omega

lemma decodePCM16_cons (lo hi : ℕ) (rest : List ℕ) :
    decodePCM16 (lo :: hi :: rest) = int16Wrap ((lo : ℤ) + 256 * hi) :: decodePCM16 rest :=
  rfl

lemma decodePCM16_int16LEBytes (v : ℤ) (rest : List ℕ) :
    decodePCM16 (int16LEBytes v ++ rest) = int16Wrap v :: decodePCM16 rest := by
  have hnn : 0 ≤ v % 65536 := Int.emod_nonneg v (by norm_num)
  have h1 : int16LEBytes v ++ rest
      = ((v % 65536).toNat % 256) :: ((v % 65536).toNat / 256) :: rest := rfl
  rw [h1, decodePCM16_cons]
  have hu : (((v % 65536).toNat % 256 : ℕ) : ℤ) + 256 * (((v % 65536).toNat / 256 : ℕ) : ℤ)
      = v % 65536 := by
    push_cast
    omega
  rw [hu, int16Wrap_emod]

lemma int16LEBytes_length (v : ℤ) : (int16LEBytes v).length = 2 := rfl

lemma pcm16Bytes_nil : pcm16Bytes [] = [] := rfl

lemma pcm16Bytes_cons (x : ℚ) (xs : List ℚ) :
    pcm16Bytes (x :: xs) = int16LEBytes (int16Wrap (truncQ (x * 32767))) ++ pcm16Bytes xs := by
  simp [pcm16Bytes]

/-! ### Worker and hand-off channel

Embedded from `_stream_audio` (websocket_server.py lines 165–257).  The external
Generator is abstracted by its observable behaviour on one invocation: the list of
chunks it hands to the sink (the `ChunkList.append` override, which pushes
`("chunk", chunk)` onto the queue), and whether the call (including
`audio_writer.start()` / `finalize()`) returns normally or raises. -/

/-- One audio chunk: the sample batch handed to the sink by the Generator. -/
abbrev Chunk := List ℚ

/-- Observable behaviour of one Generator invocation: either it sinks some chunks and
returns normally (`ok`), or it sinks some chunks and then raises an exception with the
given message (`err`). -/
inductive GenOutcome where
  | ok (chunks : List Chunk)
  | err (chunks : List Chunk) (reason : String)
deriving DecidableEq

/-- The chunks handed to the sink during the run, in sink-invocation order. -/
def GenOutcome.sunk : GenOutcome → List Chunk
  | .ok cs => cs
  | .err cs _ => cs

/-- An entry pushed onto the hand-off queue (`chunk_queue.put` arguments). -/
inductive Event where
  | chunk (c : Chunk)
  | done
  | error (reason : String)
deriving DecidableEq

def Event.isTerminal : Event → Bool
  | .chunk _ => false
  | .done => true
  | .error _ => true

def Event.chunkPayload : Event → Option Chunk
  | .chunk c => some c
  | _ => none

/-- Embedded from the worker closure `generate` (lines 186–198): inside `try`, each sink
invocation pushes `("chunk", c)`; normal return of `generator.generate` and
`audio_writer.finalize` pushes `("done", None)`; `except` pushes `("error", str(e))`.
The FIFO queue hands events to the consumer in push order, so the worker's behaviour is
the list of pushed events. -/
def workerTrace : GenOutcome → List Event
  | .ok cs => cs.map Event.chunk ++ [Event.done]
  | .err cs r => cs.map Event.chunk ++ [Event.error r]

/-! ### Consumer side of the stream

`SAMPLE_RATE` is imported by the source from the `config` module, which is not under
src/.  Modelled from the spec (§6): audio format is 22050 Hz. -/

def SAMPLE_RATE : ℕ := 22050

/-- Metadata of a successful `tts_response` (lines 89–96). -/
structure RespMeta where
  duration : ℚ
  sample_rate : ℕ
  channels : ℕ
  language : String
  emotion : String
  speed : ℚ
deriving DecidableEq

/-- An outbound server message, mirroring the JSON envelopes built in the source. -/
inductive Msg where
  | ttsResponse (audio : List ℕ) (status : String) (message : String) (metadata : Option RespMeta)
  | streamChunk (audio : List ℕ) (chunkSize : ℕ) (duration : ℚ) (sampleRate channels : ℕ)
  | streamComplete
  | pong (status : String) (ttsInitialized : Bool)
deriving DecidableEq

/-- Embedded from `_send_error` (lines 259–269): a `tts_response` envelope with empty
audio, status `"error"` and the given message. -/
def errorEnv (m : String) : Msg :=
  Msg.ttsResponse [] "error" m none

/-- Embedded from the `"chunk"` branch of the drain loop (lines 209–233): PCM16-encode
the chunk, report its byte length as `chunk_size` and `len(data) / SAMPLE_RATE` as
`duration`. -/
def mkChunkMsg (c : Chunk) : Msg :=
  Msg.streamChunk (pcm16Bytes c) (pcm16Bytes c).length ((c.length : ℚ) / SAMPLE_RATE)
    SAMPLE_RATE 1

/-- Embedded from the drain loop of `_stream_audio` (lines 204–254).  `avail` is the
number of `chunk_queue.get(timeout=30)` calls that return an event before the 30-second
timeout fires; when the loop would wait past that budget, `queue.Empty` is raised and
the loop sends the timeout error and breaks. -/
def consume : List Event → ℕ → List Msg
  | _, 0 => [errorEnv "Generation timeout"]
  | [], _ + 1 => [errorEnv "Generation timeout"]
  | .chunk c :: rest, n + 1 => mkChunkMsg c :: consume rest n
  | .done :: _, _ + 1 => [Msg.streamComplete]
  | .error r :: _, _ + 1 => [errorEnv ("Generation error: " ++ r)]

lemma consume_done (cs : List Chunk) (avail : ℕ) :
    consume (cs.map Event.chunk ++ [Event.done]) avail =
      if avail ≤ cs.length then
        (cs.take avail).map mkChunkMsg ++ [errorEnv "Generation timeout"]
      else cs.map mkChunkMsg ++ [Msg.streamComplete] := by
  induction cs generalizing avail with
  | nil =>
    cases avail with
    | zero => simp [consume]
    | succ n => simp [consume]
  | cons c cs ih =>
    cases avail with
    | zero => simp [consume]
    | succ n =>
      have hstep : consume (Event.chunk c :: (List.map Event.chunk cs ++ [Event.done])) (n + 1)
          = mkChunkMsg c :: consume (List.map Event.chunk cs ++ [Event.done]) n := rfl
      rw [List.map_cons, List.cons_append, hstep, ih]
      by_cases h : n ≤ cs.length
      · rw [if_pos h, if_pos (by simp only [List.length_cons]; omega)]
        simp
      · rw [if_neg h, if_neg (by simp only [List.length_cons]; omega)]
        simp

lemma consume_error (cs : List Chunk) (r : String) (avail : ℕ) :
    consume (cs.map Event.chunk ++ [Event.error r]) avail =
      if avail ≤ cs.length then
        (cs.take avail).map mkChunkMsg ++ [errorEnv "Generation timeout"]
      else cs.map mkChunkMsg ++ [errorEnv ("Generation error: " ++ r)] := by
  induction cs generalizing avail with
  | nil =>
    cases avail with
    | zero => simp [consume]
    | succ n => simp [consume]
  | cons c cs ih =>
    cases avail with
    | zero => simp [consume]
    | succ n =>
      have hstep : consume (Event.chunk c :: (List.map Event.chunk cs ++ [Event.error r])) (n + 1)
          = mkChunkMsg c :: consume (List.map Event.chunk cs ++ [Event.error r]) n := rfl
      rw [List.map_cons, List.cons_append, hstep, ih]
      by_cases h : n ≤ cs.length
      · rw [if_pos h, if_pos (by simp only [List.length_cons]; omega)]
        simp
      · rw [if_neg h, if_neg (by simp only [List.length_cons]; omega)]
        simp

/-! ### Configuration

Defaults are imported by the source from the `config` module, which is not under src/.
Modelled from the spec (§6): `temperature=0.6, max_tokens=1200, top_p=0.95,
chunk_size=25, lookback_frames=15`. -/

def TEMPERATURE : ℚ := 6/10

def MAX_TOKENS : ℤ := 1200

def TOP_P : ℚ := 95/100

def CHUNK_SIZE : ℤ := 25

def LOOKBACK_FRAMES : ℤ := 15

/-- The `config` sub-dictionary of a request: every field optional (absent keys are
`none`). -/
structure ConfigData where
  temperature : Option ℚ := none
  max_tokens : Option ℤ := none
  top_p : Option ℚ := none
  chunk_size : Option ℤ := none
  lookback_frames : Option ℤ := none
  language : Option String := none
  emotion : Option String := none
  speed : Option ℚ := none
  voice_id : Option String := none
deriving DecidableEq

/-- Embedded from `TTSConfig.__init__` (lines 31–42): each field falls back to its
process-wide default via `data.get`. -/
structure TTSConfig where
  temperature : ℚ
  max_tokens : ℤ
  top_p : ℚ
  chunk_size : ℤ
  lookback_frames : ℤ
  language : String
  emotion : String
  speed : ℚ
  voice_id : String
deriving DecidableEq

def TTSConfig.ofData (d : ConfigData) : TTSConfig where
  temperature := d.temperature.getD TEMPERATURE
  max_tokens := d.max_tokens.getD MAX_TOKENS
  top_p := d.top_p.getD TOP_P
  chunk_size := d.chunk_size.getD CHUNK_SIZE
  lookback_frames := d.lookback_frames.getD LOOKBACK_FRAMES
  language := d.language.getD "spanish"
  emotion := d.emotion.getD "neutral"
  speed := d.speed.getD 1
  voice_id := d.voice_id.getD "default"

/-! ### Requests and the per-message server step

Embedded from `handle_client`, `handle_tts_request`, `handle_streaming_request` and
`_generate_audio` (websocket_server.py lines 62–163 and 277–312). -/

/-- The `data` dictionary of a request; `data.get("text", "")` yields `""` when the key
is absent, so `text` is optional here and read with `getD ""`. -/
structure ReqData where
  text : Option String := none
  config : ConfigData := {}
  reference_audio : Option String := none
deriving DecidableEq

/-- One inbound WebSocket message: either not valid JSON, or a decoded object whose
`"type"` key (read with `data.get("type", "")`) may be absent. -/
inductive InMsg where
  | malformed
  | parsed (type_ : Option String) (data : ReqData)
deriving DecidableEq

/-- Per-message behaviour of the external world, abstracting the collaborators that are
not under src/: whether constructing `TTSGenerator()` / `LLMAudioPlayer()` succeeds
(`initOk`, with `initErr` the exception message otherwise), what the Generator does if
invoked (`gen`), and how many queue events arrive before the 30-second timeout
(`avail`). -/
structure Env where
  initOk : Bool := true
  initErr : String := ""
  gen : GenOutcome := .ok []
  avail : ℕ := 0
deriving DecidableEq

/-- Per-connection handler state: `WebSocketTTSHandler.initialized`. -/
structure SState where
  initialized : Bool
deriving DecidableEq

/-- Result of processing one inbound message: the envelopes sent on the socket, the
handler state afterwards, the argument pairs `(text, max_tokens)` of every
`generator.generate` call made, and the number of `initialize` bodies that ran to
successful completion. -/
structure StepResult where
  msgs : List Msg
  state : SState
  genCalls : List (String × ℤ)
  initRuns : ℕ
deriving DecidableEq

/-- Embedded from `WebSocketTTSHandler.initialize` (lines 53–59): the body runs only
when `initialized` is false; constructing the external models may raise, in which case
the flag stays false and the exception propagates to the caller's `except` clause. -/
def runInit (s : SState) (e : Env) : Except String (SState × ℕ) :=
  if s.initialized then .ok (s, 0)
  else if e.initOk then .ok (⟨true⟩, 1)
  else .error e.initErr

/-- Modelled from the spec (§4.4 `toContainer`): a standard uncompressed WAV container
— 44-byte RIFF/WAVE header (PCM format, 1 channel, `SAMPLE_RATE`, 16 bits per sample)
followed by the PCM16 payload.  The source builds this container with scipy's
`wav_write`, which is not under src/. -/
def u32le (n : ℕ) : List ℕ :=
  [n % 256, n / 256 % 256, n / 65536 % 256, n / 16777216 % 256]

def u16le (n : ℕ) : List ℕ :=
  [n % 256, n / 256 % 256]

def wavContainer (samples : List ℚ) : List ℕ :=
  let dataBytes := pcm16Bytes samples
  let dataSize := dataBytes.length
  [82, 73, 70, 70] ++ u32le (36 + dataSize) ++ [87, 65, 86, 69]
    ++ [102, 109, 116, 32] ++ u32le 16 ++ u16le 1 ++ u16le 1
    ++ u32le SAMPLE_RATE ++ u32le (SAMPLE_RATE * 2) ++ u16le 2 ++ u16le 16
    ++ [100, 97, 116, 97] ++ u32le dataSize ++ dataBytes

/-- Embedded from `_generate_audio` (lines 131–163): run the Generator synchronously;
an exception inside it propagates; with zero collected chunks raise
`"No audio generated"`; otherwise concatenate the chunks and return the container
bytes.  The `reference_audio` parameter is accepted and never used, as in the
source. -/
def generateAudio (text : String) (cfg : TTSConfig) (reference_audio : Option String)
    (gen : GenOutcome) : Except String (List ℕ) :=
  match gen with
  | .err _ r => .error r
  | .ok cs =>
    if cs.isEmpty then .error "No audio generated"
    else .ok (wavContainer cs.flatten)

/-- Embedded from `handle_tts_request` (lines 62–105): validate `text`, lazily
initialize, generate, and send either the single success `tts_response` (with
`duration = len(audio_data) / (SAMPLE_RATE * 2)`) or a single error envelope. -/
def handleTTSRequest (s : SState) (d : ReqData) (e : Env) : StepResult :=
  let text := d.text.getD ""
  if text = "" then ⟨[errorEnv "No text provided"], s, [], 0⟩
  else
    let cfg := TTSConfig.ofData d.config
    match runInit s e with
    | .error msg => ⟨[errorEnv msg], s, [], 0⟩
    | .ok (s', k) =>
      match generateAudio text cfg d.reference_audio e.gen with
      | .error msg => ⟨[errorEnv msg], s', [(text, cfg.max_tokens)], k⟩
      | .ok wav =>
        ⟨[Msg.ttsResponse wav "success" "Audio generated successfully"
            (some ⟨(wav.length : ℚ) / ((SAMPLE_RATE : ℚ) * 2), SAMPLE_RATE, 1,
              cfg.language, cfg.emotion, cfg.speed⟩)],
          s', [(text, cfg.max_tokens)], k⟩

/-- Embedded from `handle_streaming_request` (lines 107–129) and `_stream_audio`: after
validation and lazy initialization, spawn the worker and drain the hand-off queue. -/
def handleStreamRequest (s : SState) (d : ReqData) (e : Env) : StepResult :=
  let text := d.text.getD ""
  if text = "" then ⟨[errorEnv "No text provided"], s, [], 0⟩
  else
    let cfg := TTSConfig.ofData d.config
    match runInit s e with
    | .error msg => ⟨[errorEnv msg], s, [], 0⟩
    | .ok (s', k) =>
      ⟨consume (workerTrace e.gen) e.avail, s', [(text, cfg.max_tokens)], k⟩

/-- Embedded from the message dispatch of `handle_client` (lines 283–312): invalid JSON
answers `"Invalid JSON format"`; otherwise dispatch on `data.get("type", "")`, with
unknown types answered by `"Unknown message type: <type>"` and `ping` answered by a
`pong` carrying the initialization flag. -/
def step (s : SState) (m : InMsg) (e : Env) : StepResult :=
  match m with
  | .malformed => ⟨[errorEnv "Invalid JSON format"], s, [], 0⟩
  | .parsed t d =>
    let ty := t.getD ""
    if ty = "tts_request" then handleTTSRequest s d e
    else if ty = "tts_stream_request" then handleStreamRequest s d e
    else if ty = "ping" then ⟨[Msg.pong "alive" s.initialized], s, [], 0⟩
    else ⟨[errorEnv ("Unknown message type: " ++ ty)], s, [], 0⟩

/-- The connection loop (`async for message in websocket`): messages are processed
strictly sequentially, each one to completion before the next is read. -/
def run (s : SState) : List (InMsg × Env) → List Msg
  | [] => []
  | (m, e) :: rest => (step s m e).msgs ++ run (step s m e).state rest

/-- The per-message output blocks of a connection, in message order. -/
def runBlocks (s : SState) : List (InMsg × Env) → List (List Msg)
  | [] => []
  | (m, e) :: rest => (step s m e).msgs :: runBlocks (step s m e).state rest

/-- Total number of `initialize` bodies that ran to successful completion during a
connection. -/
def runInitCount (s : SState) : List (InMsg × Env) → ℕ
  | [] => 0
  | (m, e) :: rest => (step s m e).initRuns + runInitCount (step s m e).state rest

/-! ### Helper lemmas about the embedded operations -/

lemma pcm16Bytes_length (samples : List ℚ) :
    (pcm16Bytes samples).length = 2 * samples.length := by
  induction samples with
  | nil => simp [pcm16Bytes]
  | cons x xs ih =>
    rw [pcm16Bytes_cons, List.length_append, int16LEBytes_length, ih, List.length_cons]
    ring

lemma decodePCM16_pcm16Bytes (samples : List ℚ) :
    decodePCM16 (pcm16Bytes samples) = samples.map fun x => int16Wrap (truncQ (x * 32767)) := by
  induction samples with
  | nil => rfl
  | cons x xs ih =>
    rw [pcm16Bytes_cons, decodePCM16_int16LEBytes, int16Wrap_idem, ih, List.map_cons]

lemma step_malformed (s : SState) (e : Env) :
    step s .malformed e = ⟨[errorEnv "Invalid JSON format"], s, [], 0⟩ := rfl

lemma step_tts (s : SState) (d : ReqData) (e : Env) :
    step s (.parsed (some "tts_request") d) e = handleTTSRequest s d e := rfl

lemma step_stream (s : SState) (d : ReqData) (e : Env) :
    step s (.parsed (some "tts_stream_request") d) e = handleStreamRequest s d e := rfl

lemma step_ping (s : SState) (d : ReqData) (e : Env) :
    step s (.parsed (some "ping") d) e = ⟨[Msg.pong "alive" s.initialized], s, [], 0⟩ := rfl

/-! ### C1 — the PCM16 conversion -/

/-- C1 (counterexample): the claimed conversion (clamp to `[-1, 1]`, scale by 32767,
round to nearest, little-endian) disagrees with the code on the sample list
`[2, 1/32768]`: the code wraps the out-of-range sample `2` to the bytes of `-2` instead
of clamping to `32767`, and truncates `32767/32768` to `0` instead of rounding it
to `1`. -/
theorem c1_pcm16_counterexample :
    pcm16Bytes [2, 1/32768] = [254, 255, 0, 0] ∧
    pcm16SpecBytes [2, 1/32768] = [255, 127, 1, 0] ∧
    pcm16Bytes [2, 1/32768] ≠ pcm16SpecBytes [2, 1/32768] := by
  have h1 : pcm16Bytes [2, 1/32768] = [254, 255, 0, 0] := by
    norm_num [pcm16Bytes, truncQ, int16Wrap, int16LEBytes]
    decide
  have h2 : pcm16SpecBytes [2, 1/32768] = [255, 127, 1, 0] := by
    norm_num [pcm16SpecBytes, int16LEBytes, round_eq]
    decide
  refine ⟨h1, h2, ?_⟩
  rw [h1, h2]
  decide

/-- C1 (amended): for every sequence of input samples, the streamed-chunk conversion
scales each sample by 32767, truncates toward zero, and reduces the result into a
signed 16-bit value by two's-complement wraparound (no clamping and no rounding to
nearest), serializing the values as little-endian 16-bit signed mono bytes: the output
has two bytes per sample and decoding it little-endian recovers exactly
`int16Wrap (truncQ (x * 32767))` for each sample `x`. -/
theorem c1_pcm16_amended (samples : List ℚ) :
    (pcm16Bytes samples).length = 2 * samples.length ∧
    decodePCM16 (pcm16Bytes samples) = samples.map fun x => int16Wrap (truncQ (x * 32767)) :=
  ⟨pcm16Bytes_length samples, decodePCM16_pcm16Bytes samples⟩

/-! ### C3 — the generation worker -/

/-- C3: in every run of the generation worker, the pushed entries are exactly one
`("chunk", c)` per sink invocation, in order, followed by exactly one terminal
sentinel — `("done", None)` on normal return of the Generator and `("error", reason)`
on an exception; the terminal sentinel is the last entry (so no chunk push follows it)
and the worker's behaviour is always such a trace, never a raw propagated fault. -/
theorem c3_worker_sentinel (o : GenOutcome) :
    (workerTrace o).filterMap Event.chunkPayload = o.sunk ∧
    ((workerTrace o).filter (fun e => e.isTerminal)).length = 1 ∧
    (workerTrace o).dropLast = o.sunk.map Event.chunk ∧
    (workerTrace o).getLast? =
      some (match o with | .ok _ => Event.done | .err _ r => Event.error r) := by
  cases o with
  | ok cs =>
    refine ⟨?_, ?_, ?_, ?_⟩
    · have hcomp : Event.chunkPayload ∘ Event.chunk = some := rfl
      simp [workerTrace, GenOutcome.sunk, List.filterMap_append, List.filterMap_map,
        Event.chunkPayload, hcomp]
    · simp [workerTrace, List.filter_append, Event.isTerminal]
    · simp [workerTrace, GenOutcome.sunk]
    · simp [workerTrace]
  | err cs r =>
    refine ⟨?_, ?_, ?_, ?_⟩
    · have hcomp : Event.chunkPayload ∘ Event.chunk = some := rfl
      simp [workerTrace, GenOutcome.sunk, List.filterMap_append, List.filterMap_map,
        Event.chunkPayload, hcomp]
    · simp [workerTrace, List.filter_append, Event.isTerminal]
    · simp [workerTrace, GenOutcome.sunk]
    · simp [workerTrace]

/-! ### C2 and C4 — the streamed response sequence -/

lemma errorEnv_ne_streamComplete (m : String) : errorEnv m ≠ Msg.streamComplete := by
  simp [errorEnv]

lemma consume_workerTrace (g : GenOutcome) (avail : ℕ) :
    ∃ (k : ℕ) (lastMsg : Msg),
      consume (workerTrace g) avail = (g.sunk.take k).map mkChunkMsg ++ [lastMsg]
      ∧ (lastMsg = Msg.streamComplete ∨ ∃ m, lastMsg = errorEnv m)
      ∧ ((lastMsg = Msg.streamComplete) ↔ ((∃ cs, g = .ok cs) ∧ g.sunk.length < avail)) := by
  cases g with
  | ok cs =>
    simp only [workerTrace, GenOutcome.sunk]
    rw [consume_done]
    by_cases ha : avail ≤ cs.length
    · rw [if_pos ha]
      refine ⟨avail, errorEnv "Generation timeout", rfl, Or.inr ⟨_, rfl⟩, ?_⟩
      constructor
      · intro hcontra
        exact absurd hcontra (errorEnv_ne_streamComplete _)
      · rintro ⟨-, hlen⟩
        omega
    · rw [if_neg ha]
      refine ⟨cs.length, Msg.streamComplete, by rw [List.take_length], Or.inl rfl, ?_⟩
      simp only [true_iff]
      exact ⟨⟨cs, rfl⟩, by omega⟩
  | err cs r =>
    simp only [workerTrace, GenOutcome.sunk]
    rw [consume_error]
    by_cases ha : avail ≤ cs.length
    · rw [if_pos ha]
      refine ⟨avail, errorEnv "Generation timeout", rfl, Or.inr ⟨_, rfl⟩, ?_⟩
      constructor
      · intro hcontra
        exact absurd hcontra (errorEnv_ne_streamComplete _)
      · rintro ⟨⟨cs', hcs⟩, -⟩
        exact absurd hcs (by simp)
    · rw [if_neg ha]
      refine ⟨cs.length, errorEnv ("Generation error: " ++ r),
        by rw [List.take_length], Or.inr ⟨_, rfl⟩, ?_⟩
      constructor
      · intro hcontra
        exact absurd hcontra (errorEnv_ne_streamComplete _)
      · rintro ⟨⟨cs', hcs⟩, -⟩
        exact absurd hcs (by simp)

/-- C2: for every valid streaming request (non-empty text), the outbound messages for
that request are zero or more `tts_stream_chunk` messages — carrying a prefix of the
produced chunks in order — followed by exactly one final message which is either the
single `tts_stream_complete` or a single error envelope; the final message is
`tts_stream_complete` exactly when initialization succeeded, the Generator returned
normally, and no 30-second wait timed out, and nothing follows the final message. -/
theorem c2_stream_sequence (s : SState) (d : ReqData) (e : Env)
    (h : d.text.getD "" ≠ "") :
    ∃ (k : ℕ) (lastMsg : Msg),
      (step s (.parsed (some "tts_stream_request") d) e).msgs
          = (e.gen.sunk.take k).map mkChunkMsg ++ [lastMsg]
      ∧ (lastMsg = Msg.streamComplete ∨ ∃ m, lastMsg = errorEnv m)
      ∧ ((lastMsg = Msg.streamComplete) ↔
          ((s.initialized = true ∨ e.initOk = true) ∧ (∃ cs, e.gen = .ok cs)
            ∧ e.gen.sunk.length < e.avail)) := by
  rw [step_stream]
  unfold handleStreamRequest
  rw [if_neg h]
  by_cases hs : s.initialized
  · have hr : runInit s e = .ok (s, 0) := by simp [runInit, hs]
    rw [hr]
    obtain ⟨k, lastMsg, h1, h2, h3⟩ := consume_workerTrace e.gen e.avail
    exact ⟨k, lastMsg, h1, h2, by rw [h3]; simp [hs]⟩
  · by_cases he : e.initOk
    · have hr : runInit s e = .ok (⟨true⟩, 1) := by simp [runInit, hs, he]
      rw [hr]
      obtain ⟨k, lastMsg, h1, h2, h3⟩ := consume_workerTrace e.gen e.avail
      exact ⟨k, lastMsg, h1, h2, by rw [h3]; simp [he]⟩
    · have hr : runInit s e = .error e.initErr := by simp [runInit, hs, he]
      rw [hr]
      refine ⟨0, errorEnv e.initErr, by simp, Or.inr ⟨_, rfl⟩, ?_⟩
      constructor
      · intro hcontra
        exact absurd hcontra (errorEnv_ne_streamComplete _)
      · rintro ⟨hor, -, -⟩
        rcases hor with hh | hh
        · exact (hs hh).elim
        · exact (he hh).elim

/-- C2 witness: a concrete streaming request on an initialized session whose Generator
produces one chunk and completes within the wait window. -/
theorem c2_stream_sequence_witness :
    ∃ (k : ℕ) (lastMsg : Msg),
      (step ⟨true⟩ (.parsed (some "tts_stream_request") ⟨some "Hola", {}, none⟩)
          ⟨true, "", .ok [[0]], 5⟩).msgs
          = (((GenOutcome.ok [[0]]).sunk.take k).map mkChunkMsg) ++ [lastMsg]
      ∧ (lastMsg = Msg.streamComplete ∨ ∃ m, lastMsg = errorEnv m)
      ∧ ((lastMsg = Msg.streamComplete) ↔
          (((true : Bool) = true ∨ (true : Bool) = true) ∧ (∃ cs, GenOutcome.ok [[0]] = .ok cs)
            ∧ (GenOutcome.ok [[(0 : ℚ)]]).sunk.length < 5)) :=
  c2_stream_sequence ⟨true⟩ ⟨some "Hola", {}, none⟩ ⟨true, "", .ok [[0]], 5⟩ (by decide)

/-- The audio payload of a `tts_stream_chunk` message. -/
def msgChunkAudio : Msg → Option (List ℕ)
  | .streamChunk a _ _ _ _ => some a
  | _ => none

lemma msgChunkAudio_mkChunkMsg (c : Chunk) :
    msgChunkAudio (mkChunkMsg c) = some (pcm16Bytes c) := rfl

/-- C4: events surface to the consumer in push order: when the worker completes in
time, the stream chunk messages carry exactly the produced chunks in production order;
in every case the chunk payloads sent are an in-order prefix of the produced chunks;
and a connection's output is the concatenation of per-message blocks in message order,
so no output of a later request interleaves with an earlier one. -/
theorem c4_fifo_order :
    (∀ (cs : List Chunk) (avail : ℕ), cs.length < avail →
        consume (workerTrace (.ok cs)) avail = cs.map mkChunkMsg ++ [Msg.streamComplete])
    ∧ (∀ (g : GenOutcome) (avail : ℕ), ∃ k,
        (consume (workerTrace g) avail).filterMap msgChunkAudio
          = (g.sunk.take k).map pcm16Bytes)
    ∧ (∀ (s : SState) (pairs : List (InMsg × Env)), run s pairs = (runBlocks s pairs).flatten) := by
  refine ⟨?_, ?_, ?_⟩
  · intro cs avail hlt
    simp only [workerTrace]
    rw [consume_done, if_neg (by omega)]
  · intro g avail
    obtain ⟨k, lastMsg, h1, h2, -⟩ := consume_workerTrace g avail
    refine ⟨k, ?_⟩
    rw [h1, List.filterMap_append, List.filterMap_map]
    have hcomp : (msgChunkAudio ∘ mkChunkMsg) = fun c => some (pcm16Bytes c) := rfl
    rw [hcomp]
    have hlast : msgChunkAudio lastMsg = none := by
      rcases h2 with h | ⟨m, hm⟩
      · rw [h]; rfl
      · rw [hm]; rfl
    simp only [hlast, List.filterMap_append, List.filterMap_cons, List.filterMap_nil,
      List.append_nil]
    rw [show (fun c => some (pcm16Bytes c)) = some ∘ pcm16Bytes from rfl,
      List.filterMap_eq_map]
  · intro s pairs
    induction pairs generalizing s with
    | nil => rfl
    | cons p rest ih =>
      obtain ⟨m, e⟩ := p
      rw [run, runBlocks, List.flatten_cons, ih]

/-- C4 witness: a one-chunk run consumed without timeout yields the chunk message then
the completion message. -/
theorem c4_fifo_order_witness :
    consume (workerTrace (GenOutcome.ok [[(0 : ℚ)]])) 2
      = [mkChunkMsg [0], Msg.streamComplete] :=
  c4_fifo_order.1 [[0]] 2 (by decide)

/-! ### C6, C7 — request validation and protocol errors -/

/-- C6: a `tts_request` or `tts_stream_request` whose `text` field is absent or empty
is answered by exactly one error envelope `"No text provided"`; no generator call is
made, no initialization runs, the handler state is unchanged, and the connection keeps
processing subsequent messages. -/
theorem c6_missing_text (s : SState) (d : ReqData) (e : Env) (t : Option String)
    (hty : t = some "tts_request" ∨ t = some "tts_stream_request")
    (htext : d.text.getD "" = "") :
    step s (.parsed t d) e = ⟨[errorEnv "No text provided"], s, [], 0⟩
    ∧ ∀ rest, run s ((InMsg.parsed t d, e) :: rest)
        = errorEnv "No text provided" :: run s rest := by
  have hstep : step s (.parsed t d) e = ⟨[errorEnv "No text provided"], s, [], 0⟩ := by
    rcases hty with h | h <;> subst h
    · rw [step_tts]
      simp only [handleTTSRequest]
      rw [if_pos htext]
    · rw [step_stream]
      simp only [handleStreamRequest]
      rw [if_pos htext]
  refine ⟨hstep, fun rest => ?_⟩
  show (step s (.parsed t d) e).msgs ++ run (step s (.parsed t d) e).state rest = _
  rw [hstep]
  rfl

/-- C6 witness: a `tts_request` with no `text` key on a fresh connection. -/
theorem c6_missing_text_witness :
    step ⟨false⟩ (.parsed (some "tts_request") {}) {}
        = ⟨[errorEnv "No text provided"], ⟨false⟩, [], 0⟩
    ∧ ∀ rest, run ⟨false⟩ ((InMsg.parsed (some "tts_request") {}, {}) :: rest)
        = errorEnv "No text provided" :: run ⟨false⟩ rest :=
  c6_missing_text ⟨false⟩ {} {} (some "tts_request") (Or.inl rfl) rfl

/-- C7: a message that is not valid JSON is answered by exactly one
`"Invalid JSON format"` error envelope; a decoded message with an unknown `type` is
answered by exactly one error envelope naming that type; in both cases no generator
call is made, no initialization runs, the state is unchanged, and a following `ping`
on the same connection is still answered by a `pong`. -/
theorem c7_protocol_errors :
    (∀ (s : SState) (e : Env),
        step s .malformed e = ⟨[errorEnv "Invalid JSON format"], s, [], 0⟩)
    ∧ (∀ (s : SState) (t : Option String) (d : ReqData) (e : Env),
        t.getD "" ∉ (["tts_request", "tts_stream_request", "ping"] : List String) →
        step s (.parsed t d) e
          = ⟨[errorEnv ("Unknown message type: " ++ t.getD "")], s, [], 0⟩)
    ∧ (∀ (s : SState) (e e' : Env) (d : ReqData) (rest : List (InMsg × Env)),
        run s ((InMsg.malformed, e) :: (InMsg.parsed (some "ping") d, e') :: rest)
          = errorEnv "Invalid JSON format" :: Msg.pong "alive" s.initialized
              :: run s rest) := by
  refine ⟨fun s e => rfl, ?_, ?_⟩
  · intro s t d e hunk
    simp only [List.mem_cons, List.mem_singleton, not_or] at hunk
    obtain ⟨h1, h2, h3, -⟩ := hunk
    simp only [step]
    rw [if_neg h1, if_neg h2, if_neg h3]
  · intro s e e' d rest
    show (step s .malformed e).msgs ++ _ = _
    rw [step_malformed]
    show _ ++ ((step s (.parsed (some "ping") d) e').msgs ++ _) = _
    rw [step_ping]
    rfl

/-- C7 witness: an unknown message type `"bogus"` leaves the state unchanged and
produces the single naming error envelope. -/
theorem c7_protocol_errors_witness :
    step ⟨false⟩ (.parsed (some "bogus") {}) {}
      = ⟨[errorEnv ("Unknown message type: " ++ (some "bogus" : Option String).getD "")],
          ⟨false⟩, [], 0⟩ :=
  c7_protocol_errors.2.1 ⟨false⟩ (some "bogus") {} {} (by decide)

/-! ### C9, C10 — empty generation and the unused reference audio -/

/-- C9: a `tts_request` with non-empty text whose Generator run produces zero chunks is
answered not by a success response but by exactly one error envelope — a
`tts_response` with empty audio, status `"error"` and message `"No audio generated"`. -/
theorem c9_no_audio_generated (s : SState) (d : ReqData) (e : Env)
    (htext : d.text.getD "" ≠ "") (hinit : e.initOk = true) (hgen : e.gen = .ok []) :
    (step s (.parsed (some "tts_request") d) e).msgs = [errorEnv "No audio generated"]
    ∧ errorEnv "No audio generated"
        = Msg.ttsResponse [] "error" "No audio generated" none := by
  refine ⟨?_, rfl⟩
  rw [step_tts]
  simp only [handleTTSRequest]
  rw [if_neg htext]
  by_cases hs : s.initialized
  · have hr : runInit s e = .ok (s, 0) := by simp [runInit, hs]
    rw [hr, hgen]
    rfl
  · have hr : runInit s e = .ok (⟨true⟩, 1) := by simp [runInit, hs, hinit]
    rw [hr, hgen]
    rfl

/-- C9 witness: `text="Hola"` on a fresh connection with a Generator run that sinks no
chunks. -/
theorem c9_no_audio_generated_witness :
    (step ⟨false⟩ (.parsed (some "tts_request") ⟨some "Hola", {}, none⟩)
        ⟨true, "", .ok [], 0⟩).msgs = [errorEnv "No audio generated"]
    ∧ errorEnv "No audio generated"
        = Msg.ttsResponse [] "error" "No audio generated" none :=
  c9_no_audio_generated ⟨false⟩ ⟨some "Hola", {}, none⟩ ⟨true, "", .ok [], 0⟩
    (by decide) rfl rfl

/-- C10: the handler's behaviour on a `tts_request` — the messages sent, the resulting
state, and the exact arguments of every generator invocation — is identical for any two
requests that differ only in the presence or value of `reference_audio`: the accepted
value is never used. -/
theorem c10_reference_audio_independent (s : SState) (t : Option String)
    (cfgd : ConfigData) (ra₁ ra₂ : Option String) (e : Env) :
    step s (.parsed (some "tts_request") ⟨t, cfgd, ra₁⟩) e
      = step s (.parsed (some "tts_request") ⟨t, cfgd, ra₂⟩) e := rfl

/-! ### C8 — ping/pong and the initialization flag -/

/-- The `tts_initialized` flags of the `pong` messages in a message list, in order. -/
def pongFlags (l : List Msg) : List Bool :=
  l.filterMap fun m => match m with
    | .pong _ b => some b
    | _ => none

lemma pongFlags_append (a b : List Msg) :
    pongFlags (a ++ b) = pongFlags a ++ pongFlags b := by
  simp [pongFlags]

lemma pongFlags_consume (tr : List Event) (avail : ℕ) :
    pongFlags (consume tr avail) = [] := by
  induction tr generalizing avail with
  | nil => cases avail <;> rfl
  | cons ev rest ih =>
    cases avail with
    | zero => cases ev <;> rfl
    | succ n =>
      cases ev with
      | chunk c =>
        show pongFlags (mkChunkMsg c :: consume rest n) = []
        show List.filterMap _ (mkChunkMsg c :: consume rest n) = []
        rw [List.filterMap_cons]
        exact ih n
      | done => rfl
      | error r => rfl

lemma pongFlags_handleTTS (s : SState) (d : ReqData) (e : Env) :
    pongFlags (handleTTSRequest s d e).msgs = [] := by
  simp only [handleTTSRequest]
  by_cases ht : d.text.getD "" = ""
  · rw [if_pos ht]
    rfl
  · rw [if_neg ht]
    rcases hr : runInit s e with msg | sk
    · rfl
    · obtain ⟨s', k⟩ := sk
      rcases hgen : generateAudio (d.text.getD "") (TTSConfig.ofData d.config)
          d.reference_audio e.gen with msg | wav <;> rfl

lemma pongFlags_handleStream (s : SState) (d : ReqData) (e : Env) :
    pongFlags (handleStreamRequest s d e).msgs = [] := by
  simp only [handleStreamRequest]
  by_cases ht : d.text.getD "" = ""
  · rw [if_pos ht]
    rfl
  · rw [if_neg ht]
    rcases hr : runInit s e with msg | sk
    · rfl
    · obtain ⟨s', k⟩ := sk
      exact pongFlags_consume _ _

lemma pong_step (s : SState) (m : InMsg) (e : Env) :
    ∀ b ∈ pongFlags (step s m e).msgs, b = s.initialized := by
  cases m with
  | malformed =>
    intro b hb
    rw [show pongFlags (step s .malformed e).msgs = [] from rfl] at hb
    exact absurd hb (List.not_mem_nil b)
  | parsed t d =>
    simp only [step]
    split_ifs with h1 h2 h3
    · rw [pongFlags_handleTTS]
      simp
    · rw [pongFlags_handleStream]
      simp
    · intro b hb
      rw [show pongFlags [Msg.pong "alive" s.initialized] = [s.initialized] from rfl] at hb
      exact List.eq_of_mem_singleton hb
    · intro b hb
      rw [show pongFlags [errorEnv ("Unknown message type: " ++ t.getD "")] = [] from rfl] at hb
      exact absurd hb (List.not_mem_nil b)

lemma handleTTS_accounting (s : SState) (d : ReqData) (e : Env) :
    ((handleTTSRequest s d e).initRuns = 0 ∧ (handleTTSRequest s d e).state = s)
    ∨ ((handleTTSRequest s d e).initRuns = 1 ∧ s.initialized = false
        ∧ (handleTTSRequest s d e).state = ⟨true⟩) := by
  simp only [handleTTSRequest]
  by_cases ht : d.text.getD "" = ""
  · rw [if_pos ht]
    exact Or.inl ⟨rfl, rfl⟩
  · rw [if_neg ht]
    by_cases hs : s.initialized
    · have hr : runInit s e = .ok (s, 0) := by simp [runInit, hs]
      rw [hr]
      rcases hgen : generateAudio (d.text.getD "") (TTSConfig.ofData d.config)
          d.reference_audio e.gen with msg | wav <;> exact Or.inl ⟨rfl, rfl⟩
    · have hsf : s.initialized = false := by revert hs; cases s.initialized <;> simp
      by_cases he : e.initOk
      · have hr : runInit s e = .ok (⟨true⟩, 1) := by simp [runInit, hs, he]
        rw [hr]
        rcases hgen : generateAudio (d.text.getD "") (TTSConfig.ofData d.config)
            d.reference_audio e.gen with msg | wav <;> exact Or.inr ⟨rfl, hsf, rfl⟩
      · have hr : runInit s e = .error e.initErr := by simp [runInit, hs, he]
        rw [hr]
        exact Or.inl ⟨rfl, rfl⟩

lemma handleStream_accounting (s : SState) (d : ReqData) (e : Env) :
    ((handleStreamRequest s d e).initRuns = 0 ∧ (handleStreamRequest s d e).state = s)
    ∨ ((handleStreamRequest s d e).initRuns = 1 ∧ s.initialized = false
        ∧ (handleStreamRequest s d e).state = ⟨true⟩) := by
  simp only [handleStreamRequest]
  by_cases ht : d.text.getD "" = ""
  · rw [if_pos ht]
    exact Or.inl ⟨rfl, rfl⟩
  · rw [if_neg ht]
    by_cases hs : s.initialized
    · have hr : runInit s e = .ok (s, 0) := by simp [runInit, hs]
      rw [hr]
      exact Or.inl ⟨rfl, rfl⟩
    · have hsf : s.initialized = false := by revert hs; cases s.initialized <;> simp
      by_cases he : e.initOk
      · have hr : runInit s e = .ok (⟨true⟩, 1) := by simp [runInit, hs, he]
        rw [hr]
        exact Or.inr ⟨rfl, hsf, rfl⟩
      · have hr : runInit s e = .error e.initErr := by simp [runInit, hs, he]
        rw [hr]
        exact Or.inl ⟨rfl, rfl⟩

lemma step_accounting (s : SState) (m : InMsg) (e : Env) :
    ((step s m e).initRuns = 0 ∧ (step s m e).state = s)
    ∨ ((step s m e).initRuns = 1 ∧ s.initialized = false
        ∧ (step s m e).state = ⟨true⟩) := by
  cases m with
  | malformed => exact Or.inl ⟨rfl, rfl⟩
  | parsed t d =>
    simp only [step]
    split_ifs with h1 h2 h3
    · exact handleTTS_accounting s d e
    · exact handleStream_accounting s d e
    · exact Or.inl ⟨rfl, rfl⟩
    · exact Or.inl ⟨rfl, rfl⟩

lemma step_initialized_mono (s : SState) (m : InMsg) (e : Env)
    (h : s.initialized = true) : (step s m e).state.initialized = true := by
  rcases step_accounting s m e with ⟨-, h2⟩ | ⟨-, -, h2⟩
  · rw [h2]
    exact h
  · rw [h2]

lemma runInitCount_of_initialized (s : SState) (pairs : List (InMsg × Env))
    (h : s.initialized = true) : runInitCount s pairs = 0 := by
  induction pairs generalizing s with
  | nil => rfl
  | cons p rest ih =>
    obtain ⟨m, e⟩ := p
    show (step s m e).initRuns + runInitCount (step s m e).state rest = 0
    rcases step_accounting s m e with ⟨h1, h2⟩ | ⟨-, h3, -⟩
    · rw [h1, h2, ih s h]
    · rw [h3] at h
      exact absurd h (by decide)

lemma runInitCount_le_one (s : SState) (pairs : List (InMsg × Env)) :
    runInitCount s pairs ≤ 1 := by
  induction pairs generalizing s with
  | nil => exact Nat.zero_le 1
  | cons p rest ih =>
    obtain ⟨m, e⟩ := p
    show (step s m e).initRuns + runInitCount (step s m e).state rest ≤ 1
    rcases step_accounting s m e with ⟨h1, h2⟩ | ⟨h1, -, h2⟩
    · rw [h1, h2]
      simpa using ih s
    · rw [h1, h2, runInitCount_of_initialized ⟨true⟩ rest rfl]

lemma sorted_of_all_eq (l : List Bool) (c : Bool) (h : ∀ b ∈ l, b = c) :
    l.Sorted (· ≤ ·) := by
  induction l with
  | nil => exact List.sorted_nil
  | cons a l ih =>
    rw [List.sorted_cons]
    refine ⟨fun b hb => ?_, ih fun b hb => h b (List.mem_cons_of_mem a hb)⟩
    rw [h a (List.mem_cons_self a l), h b (List.mem_cons_of_mem a hb)]

lemma allTrue_run (s : SState) (pairs : List (InMsg × Env))
    (h : s.initialized = true) : ∀ b ∈ pongFlags (run s pairs), b = true := by
  induction pairs generalizing s with
  | nil => simp [run, pongFlags]
  | cons p rest ih =>
    obtain ⟨m, e⟩ := p
    show ∀ b ∈ pongFlags ((step s m e).msgs ++ run (step s m e).state rest), b = true
    rw [pongFlags_append]
    intro b hb
    rcases List.mem_append.mp hb with hb | hb
    · rw [pong_step s m e b hb]
      exact h
    · exact ih _ (step_initialized_mono s m e h) b hb

lemma sorted_run (s : SState) (pairs : List (InMsg × Env)) :
    List.Sorted (· ≤ ·) (pongFlags (run s pairs)) := by
  induction pairs generalizing s with
  | nil => simp [run, pongFlags]
  | cons p rest ih =>
    obtain ⟨m, e⟩ := p
    by_cases h : s.initialized
    · exact sorted_of_all_eq _ true (allTrue_run s ((m, e) :: rest) h)
    · have hsf : s.initialized = false := by revert h; cases s.initialized <;> simp
      show List.Sorted _ (pongFlags ((step s m e).msgs ++ run (step s m e).state rest))
      rw [pongFlags_append, List.Sorted, List.pairwise_append]
      refine ⟨sorted_of_all_eq _ s.initialized (pong_step s m e), ih _, ?_⟩
      intro x hx y hy
      rw [pong_step s m e x hx, hsf]
      exact Bool.false_le y

/-- C8: every `ping` is answered by exactly one `pong` with status `"alive"` whose
`tts_initialized` is the session's current initialization flag, with no state change
and no generation; across any run of a connection the reported flags are monotone
(once `true`, never `false` afterwards); and the `initialize` body runs to successful
completion at most once per connection. -/
theorem c8_ping_monotone :
    (∀ (s : SState) (d : ReqData) (e : Env),
        step s (.parsed (some "ping") d) e
          = ⟨[Msg.pong "alive" s.initialized], s, [], 0⟩)
    ∧ (∀ (s : SState) (pairs : List (InMsg × Env)),
        List.Sorted (· ≤ ·) (pongFlags (run s pairs)))
    ∧ (∀ (s : SState) (pairs : List (InMsg × Env)), runInitCount s pairs ≤ 1) :=
  ⟨step_ping, sorted_run, runInitCount_le_one⟩

/-! ### C5 — the reported duration of a full response -/

lemma pcm16Bytes_replicate_zero (n : ℕ) :
    pcm16Bytes (List.replicate n 0) = List.replicate (2 * n) 0 := by
  induction n with
  | zero => rfl
  | succ n ih =>
    have h0 : int16LEBytes (int16Wrap (truncQ (0 * 32767))) = [0, 0] := by
      norm_num [truncQ, int16Wrap, int16LEBytes]
    rw [List.replicate_succ, pcm16Bytes_cons, h0, ih,
      show 2 * (n + 1) = 2 * n + 1 + 1 by ring, List.replicate_succ, List.replicate_succ]
    rfl

/-- C5: for a successful `tts_request` there is exactly one success `tts_response`,
but the reported `metadata.duration` is the length of the whole returned container
(44-byte header included) divided by `2 · SAMPLE_RATE`, not the decodable PCM sample
count divided by the sample rate: a run producing 22 samples (one millisecond of audio)
yields an 88-byte container whose decodable PCM payload is 22 samples, yet the response
reports `duration = 88/44100` seconds — double the true `22/22050` seconds. -/
theorem c5_duration_code_bug :
    ∃ (wav : List ℕ) (meta : RespMeta),
      (step ⟨true⟩ (.parsed (some "tts_request") ⟨some "Hola", {}, none⟩)
          ⟨true, "", .ok [List.replicate 22 0], 0⟩).msgs
        = [Msg.ttsResponse wav "success" "Audio generated successfully" (some meta)]
      ∧ wav.length = 88
      ∧ (decodePCM16 (wav.drop 44)).length = 22
      ∧ meta.duration = 88 / 44100
      ∧ ((22 : ℚ) / 22050 ≠ 88 / 44100) := by
  have hpcm : pcm16Bytes (List.replicate 22 0) = List.replicate 44 0 := by
    have := pcm16Bytes_replicate_zero 22
    norm_num at this
    exact this
  have hwav : wavContainer (List.replicate 22 0)
      = ([82, 73, 70, 70] ++ u32le 80 ++ [87, 65, 86, 69] ++ [102, 109, 116, 32]
          ++ u32le 16 ++ u16le 1 ++ u16le 1 ++ u32le SAMPLE_RATE ++ u32le (SAMPLE_RATE * 2)
          ++ u16le 2 ++ u16le 16 ++ [100, 97, 116, 97] ++ u32le 44)
          ++ List.replicate 44 0 := by
    simp only [wavContainer]
    rw [hpcm]
    simp [List.length_replicate]
  have hlen : (wavContainer (List.replicate 22 0)).length = 88 := by
    rw [hwav]
    decide
  have hmain : (step ⟨true⟩ (.parsed (some "tts_request") ⟨some "Hola", {}, none⟩)
        ⟨true, "", .ok [List.replicate 22 0], 0⟩).msgs
      = [Msg.ttsResponse (wavContainer (List.replicate 22 0)) "success"
          "Audio generated successfully"
          (some ⟨((wavContainer (List.replicate 22 0)).length : ℚ) / ((SAMPLE_RATE : ℚ) * 2),
            SAMPLE_RATE, 1, "spanish", "neutral", 1⟩)] := rfl
  refine ⟨wavContainer (List.replicate 22 0),
    ⟨((wavContainer (List.replicate 22 0)).length : ℚ) / ((SAMPLE_RATE : ℚ) * 2),
      SAMPLE_RATE, 1, "spanish", "neutral", 1⟩, hmain, hlen, ?_, ?_, ?_⟩
  · rw [hwav]
    decide
  · show ((wavContainer (List.replicate 22 0)).length : ℚ) / ((SAMPLE_RATE : ℚ) * 2)
      = 88 / 44100
    rw [hlen]
    norm_num [SAMPLE_RATE]
  · norm_num

end KaniTTS
